import Mathlib

/-!
Verification of the bmrc_scripts pipeline examples.

The repository contains ruffus/cgatcore tutorial pipelines
(pipeline_intro_1.py, pipeline_intro_2.py, pipeline_bmrc_check.py) and a
plain drmaa submission script (python_script.py).  The task-graph engine
itself (topological ordering, freshness checking, the executor and the
resource-manager client) lives in the external framework; those parts are
modelled here from the specification, while the task registrations, task
bodies and the drmaa script are embedded directly from the source files.
-/

/-- A pipeline task as registered by the ruffus decorators: a name, the
decorator that registered it, the declared input and output artifact paths,
and the explicit follows edges (names of tasks that must complete first). -/
structure PipelineTask where
  name : String
  decorator : String
  inputs : List String
  outputs : List String
  deps : List String
deriving DecidableEq, Repr

/-! ### PipelineTask registries, transcribed from the decorators in the source -/

/-- pipeline_intro_1.py: originate writing Task01_output_file.txt. -/
def taskOne : PipelineTask :=
  ⟨"taskOne", "originate", [], ["Task01_output_file.txt"], []⟩

/-- pipeline_intro_1.py: follows taskOne, files(Task01 -> Task02). -/
def taskTwo : PipelineTask :=
  ⟨"taskTwo", "files", ["Task01_output_file.txt"], ["Task02_output_file.txt"],
   ["taskOne"]⟩

/-- pipeline_intro_1.py: transform([taskOne, taskTwo], suffix .txt, _modified.txt). -/
def taskThree : PipelineTask :=
  ⟨"taskThree", "transform",
   ["Task01_output_file.txt", "Task02_output_file.txt"],
   ["Task01_output_file_modified.txt", "Task02_output_file_modified.txt"], []⟩

/-- pipeline_intro_1.py: the aggregate target, follows the three tasks and
declares no inputs or outputs. -/
def fullIntro1 : PipelineTask :=
  ⟨"full", "follows", [], [], ["taskOne", "taskTwo", "taskThree"]⟩

/-- The task registry of pipeline_intro_1.py. -/
def intro1Tasks : List PipelineTask := [taskOne, taskTwo, taskThree, fullIntro1]

/-- pipeline_intro_2.py Section 1. -/
def createShellScript : PipelineTask :=
  ⟨"createShellScript", "originate", [], ["clusterEnvironment.sh"], []⟩

/-- pipeline_intro_2.py: transform(createShellScript, suffix .sh, _ruffus.txt). -/
def submitClusterJob_ruffus : PipelineTask :=
  ⟨"submitClusterJob_ruffus", "transform", ["clusterEnvironment.sh"],
   ["clusterEnvironment_ruffus.txt"], []⟩

/-- pipeline_intro_2.py: follows submitClusterJob_ruffus, transform to _cgatcore.txt. -/
def submitClusterJob_cgatcore : PipelineTask :=
  ⟨"submitClusterJob_cgatcore", "transform", ["clusterEnvironment.sh"],
   ["clusterEnvironment_cgatcore.txt"], ["submitClusterJob_ruffus"]⟩

/-- pipeline_intro_2.py Section 2: loads the counts table into sqlite and
touches a sentinel. -/
def loadSQLTableTask : PipelineTask :=
  ⟨"loadSQLTable", "transform", ["pipeline_intro_2/counts_table.tsv"],
   ["analyse_count_table.dir/counts_table.load"], []⟩

/-- pipeline_intro_2.py: transform(loadSQLTable, suffix .load, .tsv). -/
def retrieveSQLTableTask : PipelineTask :=
  ⟨"retrieveSQLTable", "transform", ["analyse_count_table.dir/counts_table.load"],
   ["analyse_count_table.dir/counts_table.tsv"], []⟩

/-- pipeline_intro_2.py: subdivide(loadSQLTable) into a normalised table and a plot. -/
def plotNMDS : PipelineTask :=
  ⟨"plotNMDS", "subdivide", ["analyse_count_table.dir/counts_table.load"],
   ["analyse_count_table.dir/counts_table_normalised.tsv",
    "analyse_count_table.dir/counts_table_normalised.png"], []⟩

/-- pipeline_intro_2.py: transform(plotNMDS, suffix .tsv, _ANOSIM_R.tsv). -/
def calculateAnosimR : PipelineTask :=
  ⟨"calculateAnosimR", "transform",
   ["analyse_count_table.dir/counts_table_normalised.tsv"],
   ["analyse_count_table.dir/counts_table_normalised_ANOSIM_R.tsv"], []⟩

/-- pipeline_intro_2.py Section 3: trimmomatic over the two fastq files. -/
def trimFastqReads : PipelineTask :=
  ⟨"trimFastqReads", "transform",
   ["pipeline_intro_2/fastqs.dir/AGCYW-25K-R1.fastq.1.gz",
    "pipeline_intro_2/fastqs.dir/AGCYW-25K-R2.fastq.1.gz"],
   ["trimmed_fastqs.dir/AGCYW-25K-R1.fastq.1.gz",
    "trimmed_fastqs.dir/AGCYW-25K-R2.fastq.1.gz"], []⟩

/-- pipeline_intro_2.py: transform(trimFastqReads) joining read pairs with flash. -/
def joinPEReads : PipelineTask :=
  ⟨"joinPEReads", "transform",
   ["trimmed_fastqs.dir/AGCYW-25K-R1.fastq.1.gz",
    "trimmed_fastqs.dir/AGCYW-25K-R2.fastq.1.gz"],
   ["merged_fastqs.dir/AGCYW-25K-R1.extendedFrags.fastq.gz",
    "merged_fastqs.dir/AGCYW-25K-R2.extendedFrags.fastq.gz"], []⟩

/-- pipeline_intro_2.py: aggregate target for Section 1, follows only. -/
def sectionOne : PipelineTask :=
  ⟨"sectionOne", "follows", [], [],
   ["submitClusterJob_ruffus", "submitClusterJob_cgatcore"]⟩

/-- pipeline_intro_2.py: aggregate target for Section 2, follows only. -/
def sectionTwo : PipelineTask :=
  ⟨"sectionTwo", "follows", [], [], ["retrieveSQLTable", "calculateAnosimR"]⟩

/-- pipeline_intro_2.py: aggregate target for Section 3, follows only. -/
def sectionThree : PipelineTask :=
  ⟨"sectionThree", "follows", [], [], ["joinPEReads"]⟩

/-- pipeline_intro_2.py: the aggregate target for the whole pipeline. -/
def fullIntro2 : PipelineTask :=
  ⟨"full", "follows", [], [], ["sectionOne", "sectionTwo", "sectionThree"]⟩

/-- The task registry of pipeline_intro_2.py. -/
def intro2Tasks : List PipelineTask :=
  [createShellScript, submitClusterJob_ruffus, submitClusterJob_cgatcore,
   loadSQLTableTask, retrieveSQLTableTask, plotNMDS, calculateAnosimR,
   trimFastqReads, joinPEReads, sectionOne, sectionTwo, sectionThree, fullIntro2]

/-- pipeline_bmrc_check.py: the list comprehension in the originate decorator
of create_dummy_files, task_i.sentinel for i in range(1, 11). -/
def create_dummy_files_outputs : List String :=
  (List.range' 1 10).map (fun n => "task_" ++ toString n ++ ".sentinel")

/-- pipeline_bmrc_check.py: the matching .complete files produced by submit_jobs
(regex (.+).sentinel rewritten to \1.complete). -/
def submit_jobs_outputs : List String :=
  (List.range' 1 10).map (fun n => "task_" ++ toString n ++ ".complete")

/-- pipeline_bmrc_check.py: the originate task registration. -/
def create_dummy_files_task : PipelineTask :=
  ⟨"create_dummy_files", "originate", [], create_dummy_files_outputs, []⟩

/-- pipeline_bmrc_check.py: the transform task registration. -/
def submit_jobs_task : PipelineTask :=
  ⟨"submit_jobs", "transform", create_dummy_files_outputs, submit_jobs_outputs, []⟩

/-- pipeline_bmrc_check.py: the aggregate target, follows only. -/
def fullBmrc : PipelineTask :=
  ⟨"full", "follows", [], [], ["submit_jobs"]⟩

/-- The task registry of pipeline_bmrc_check.py. -/
def bmrcTasks : List PipelineTask := [create_dummy_files_task, submit_jobs_task, fullBmrc]

/-- Every task registered by a decorator in any of the three pipeline scripts. -/
def allRegisteredTasks : List PipelineTask := intro1Tasks ++ intro2Tasks ++ bmrcTasks

/-! ### PipelineTask bodies embedded from the source -/

/-- Body of create_dummy_files in pipeline_bmrc_check.py: opening outfile for
writing and closing it creates the file with empty content.  The result is
the (path, content) pair written. -/
def create_dummy_files (outfile : String) : String × String := (outfile, "")

/-- Helper for pySplit: walk the characters, accumulating the current word in
reverse; whitespace ends a word, and runs of whitespace produce no empty
words. -/
def pyWordsAux : List Char → List Char → List String
  | [], acc => if acc.isEmpty then [] else [String.mk acc.reverse]
  | c :: cs, acc =>
    if c.isWhitespace then
      if acc.isEmpty then pyWordsAux cs []
      else String.mk acc.reverse :: pyWordsAux cs []
    else pyWordsAux cs (c :: acc)

/-- Python str.split with no argument: split on runs of whitespace, dropping
empty fields. -/
def pySplit (s : String) : List String :=
  pyWordsAux s.data []

/-- Characters of the first line, up to the first newline. -/
def takeLine : List Char → List Char
  | [] => []
  | c :: cs => if c = '\n' then [] else c :: takeLine cs

/-- The readline call in taskThree of pipeline_intro_1.py: the first line of
the file content (the trailing newline is whitespace and is dropped by the
subsequent split, so it is omitted here). -/
def firstLineOf (content : String) : String :=
  String.mk (takeLine content.data)

/-- Body of taskThree in pipeline_intro_1.py: read the first line of the
input file, split it into whitespace-separated tokens, and write the join of
token 0, the literal, token 1 and token 2 followed by a newline.  The
unguarded indexing of tokens 0, 1 and 2 raises IndexError when there are
fewer than three tokens, modelled as none. -/
def taskThree_body (content : String) : Option String :=
  match pySplit (firstLineOf content) with
  | t0 :: t1 :: t2 :: _ =>
    some (String.intercalate " " [t0, "brave new", t1, t2] ++ "\n")
  | _ => none

/-! ### The sqlite / pandas round trip of pipeline_intro_2.py Section 2 -/

/-- A pandas dataframe indexed by one column: the index column name, the
remaining column names, and the rows as (index value, cell values). -/
structure DataFrame where
  indexName : String
  columns : List String
  rows : List (String × List String)
deriving DecidableEq, Repr

/-- The sqlite database: a name-indexed store of tables. -/
def Database : Type := List (String × DataFrame)

/-- Modelled from the spec: SQL/dataframe loading is an external collaborator
consumed via a narrow interface (pandas.DataFrame.to_sql, not in src/).
With index stored and if_exists replace, storing a dataframe under a table
name replaces any previous table of that name. -/
def to_sql (tname : String) (df : DataFrame) (db : Database) : Database :=
  (tname, df) :: db.filter (fun e => e.1 != tname)

/-- Modelled from the spec: pandas.read_sql_query with SELECT * FROM tname and
index_col equal to the stored index (not in src/) returns the stored table. -/
def read_sql_query_all (tname : String) (db : Database) : Option DataFrame :=
  (db.find? (fun e => e.1 == tname)).map (fun e => e.2)

/-- os.path.basename for the slash-separated paths used in the pipeline. -/
def basename (p : String) : String :=
  (p.splitOn "/").getLastD p

/-- The table-name derivation in loadSQLTable and retrieveSQLTable:
os.path.basename(f) with the final five characters (.load) sliced off. -/
def tableNameOf (f : String) : String :=
  let b := basename f
  b.take (b.length - ".load".length)

/-- Body of loadSQLTable in pipeline_intro_2.py, restricted to its database
effect: derive the table name from the sentinel outfile and load the
dataframe into the database, replacing any old version. -/
def loadSQLTable (df : DataFrame) (outfile : String) (db : Database) : Database :=
  to_sql (tableNameOf outfile) df db

/-- Body of retrieveSQLTable in pipeline_intro_2.py: derive the table name
from the sentinel infile and fetch the table with SELECT *. -/
def retrieveSQLTable (infile : String) (db : Database) : Option DataFrame :=
  read_sql_query_all (tableNameOf infile) db

/-- The df.to_csv(outfile, sep tab) call in retrieveSQLTable: header line of
index name and column names, then one tab-separated line per row. -/
def to_csv_tsv (df : DataFrame) : String :=
  String.intercalate "\t" (df.indexName :: df.columns) ++ "\n" ++
    String.join (df.rows.map (fun r => String.intercalate "\t" (r.1 :: r.2) ++ "\n"))

/-! ### Command-template formatting (remote mode) -/

/-- A piece of a cgatcore command template: literal text or a substitution
key written percent-parenthesised in the source statements. -/
inductive TemplatePart where
  | lit (s : String)
  | key (k : String)
deriving DecidableEq, Repr

/-- Modelled from the spec: the command-template formatting performed by
cgatcore.pipeline.run (not in src/) substitutes each key from the local
namespace merged with the loaded configuration; a missing required
substitution key is a fatal configuration error, not a silent no-op. -/
def formatCommand : List TemplatePart → List (String × String) → Except String String
  | [], _ => Except.ok ""
  | TemplatePart.lit s :: rest, env => (formatCommand rest env).map (fun r => s ++ r)
  | TemplatePart.key k :: rest, env =>
    match env.find? (fun e => e.1 == k) with
    | some e => (formatCommand rest env).map (fun r => e.2 ++ r)
    | none => Except.error k

/-- The first trimmomatic statement of trimFastqReads in pipeline_intro_2.py,
with its substitution keys. -/
def trimStatement : List TemplatePart :=
  [TemplatePart.lit "java -Xmx5g -jar ",
   TemplatePart.key "trim_tool_location",
   TemplatePart.lit " PE -phred33 ",
   TemplatePart.key "fastq_1", TemplatePart.lit " ",
   TemplatePart.key "fastq_2", TemplatePart.lit " ",
   TemplatePart.key "tmpf_1", TemplatePart.lit " ",
   TemplatePart.key "fastq_1_unpaired", TemplatePart.lit " ",
   TemplatePart.key "tmpf_2", TemplatePart.lit " ",
   TemplatePart.key "fastq_2_unpaired",
   TemplatePart.lit " MINLEN:",
   TemplatePart.key "trim_min_length"]

/-- An environment for trimFastqReads holding the local namespace variables
but missing the configuration key trim_tool_location. -/
def trimEnvMissingTool : List (String × String) :=
  [("fastq_1", "pipeline_intro_2/fastqs.dir/AGCYW-25K-R1.fastq.1.gz"),
   ("fastq_2", "pipeline_intro_2/fastqs.dir/AGCYW-25K-R2.fastq.1.gz"),
   ("tmpf_1", "ctmpabc1"), ("tmpf_2", "ctmpabc2"),
   ("fastq_1_unpaired", "AGCYW-25K-R1_unpaired.fastq.1.gz"),
   ("fastq_2_unpaired", "AGCYW-25K-R2_unpaired.fastq.2.gz"),
   ("trim_min_length", "180")]

/-! ### The drmaa client of python_script.py -/

/-- The externally visible calls made by main in python_script.py, in source
order (the job-template attribute assignments have no resource effect and are
folded into createTemplate). -/
inductive DrmaaStep where
  | initSession
  | createTemplate
  | runJob
  | deleteTemplate
  | exitSession
  | unlinkScript
deriving DecidableEq, Repr

/-- The backend resources held by main: whether the drmaa session is open and
whether a job template is allocated. -/
structure DrmaaState where
  sessionOpen : Bool
  templateAllocated : Bool
deriving DecidableEq, Repr

/-- Resource effect of each call in main. -/
def applyDrmaaStep (st : DrmaaState) : DrmaaStep → DrmaaState
  | DrmaaStep.initSession => ⟨true, st.templateAllocated⟩
  | DrmaaStep.createTemplate => ⟨st.sessionOpen, true⟩
  | DrmaaStep.runJob => st
  | DrmaaStep.deleteTemplate => ⟨st.sessionOpen, false⟩
  | DrmaaStep.exitSession => ⟨false, st.templateAllocated⟩
  | DrmaaStep.unlinkScript => st

/-- The statements of main in python_script.py, in source order. -/
def mainSteps : List DrmaaStep :=
  [DrmaaStep.initSession, DrmaaStep.createTemplate, DrmaaStep.runJob,
   DrmaaStep.deleteTemplate, DrmaaStep.exitSession, DrmaaStep.unlinkScript]

/-- Run the statements in order under a fault oracle.  main has no
try/finally, so the first backend call that raises propagates the exception
out of the function and every remaining statement is skipped.  Returns the
final resource state and whether an exception escaped. -/
def runSteps (fails : DrmaaStep → Bool) : List DrmaaStep → DrmaaState → DrmaaState × Bool
  | [], st => (st, false)
  | s :: rest, st =>
    if fails s then (st, true) else runSteps fails rest (applyDrmaaStep st s)

/-- main of python_script.py as a function of the fault oracle, starting with
no session and no template. -/
def python_script_main (fails : DrmaaStep → Bool) : DrmaaState × Bool :=
  runSteps fails mainSteps ⟨false, false⟩

/-! ### TaskGraph: dependency edges and Kahn-style batches -/

/-- Modelled from the spec: the dependency names of a task inside the graph g
(the TaskGraph adjacency lives in the external framework, not in src/): the
explicit follows edges plus the implicit edges to every task whose declared
outputs contain one of the declared inputs of the task. -/
def depsOf (g : List PipelineTask) (t : PipelineTask) : List String :=
  t.deps ++
    (g.filter (fun u => t.inputs.any (fun p => decide (p ∈ u.outputs)))).map
      PipelineTask.name

/-- Modelled from the spec: one round of the Kahn-style in-degree reduction,
the pending tasks all of whose dependencies are already emitted. -/
def kahnReady (g : List PipelineTask) (emitted : List String)
    (pending : List PipelineTask) : List PipelineTask :=
  pending.filter (fun t => (depsOf g t).all (fun d => decide (d ∈ emitted)))

/-- Modelled from the spec: Kahn-style batching with fuel, stopping when no
pending task is ready (a cycle) or when all tasks are emitted. -/
def kahnBatches (g : List PipelineTask) :
    Nat → List String → List PipelineTask → List (List PipelineTask)
  | 0, _, _ => []
  | fuel + 1, emitted, pending =>
    if (kahnReady g emitted pending).isEmpty then []
    else
      kahnReady g emitted pending ::
        kahnBatches g fuel
          (emitted ++ (kahnReady g emitted pending).map PipelineTask.name)
          (pending.filter (fun t =>
            !(decide (t.name ∈ (kahnReady g emitted pending).map PipelineTask.name))))

/-- Modelled from the spec: topologicalOrder produces the dependency-respecting
batches of the graph. -/
def topologicalOrder (g : List PipelineTask) : List (List PipelineTask) :=
  kahnBatches g g.length [] g

/-- Index of the batch containing the named task. -/
def batchIdx (g : List PipelineTask) (n : String) : Option Nat :=
  (topologicalOrder g).findIdx? (fun b => b.any (fun t => t.name == n))

/-- A task is placed in a batch only once all its dependencies are in the
emitted set or in strictly earlier batches. -/
theorem kahnBatches_deps_emitted (g : List PipelineTask) :
    ∀ (fuel : Nat) (emitted : List String) (pending : List PipelineTask)
      (i : Nat) (bi : List PipelineTask) (t : PipelineTask) (d : String),
      (kahnBatches g fuel emitted pending)[i]? = some bi → t ∈ bi →
      d ∈ depsOf g t →
      d ∈ emitted ∨ ∃ j, j < i ∧ ∃ bj,
        (kahnBatches g fuel emitted pending)[j]? = some bj ∧
        ∃ u, u ∈ bj ∧ u.name = d := by
  intro fuel
  induction fuel with
  | zero =>
    intro emitted pending i bi t d hb
    simp [kahnBatches] at hb
  | succ fuel ih =>
    intro emitted pending i bi t d hb ht hd
    rw [kahnBatches] at hb
    by_cases hbe : (kahnReady g emitted pending).isEmpty
    · rw [if_pos hbe] at hb
      simp at hb
    · rw [if_neg hbe] at hb
      cases i with
      | zero =>
        left
        have hbi : bi = kahnReady g emitted pending := by
          simpa using hb.symm
        subst hbi
        have hmem := List.mem_filter.mp ht
        have hall := List.all_eq_true.mp hmem.2 d hd
        simpa using hall
      | succ i0 =>
        have hb0 : (kahnBatches g fuel
            (emitted ++ (kahnReady g emitted pending).map PipelineTask.name)
            (pending.filter (fun t =>
              !(decide (t.name ∈ (kahnReady g emitted pending).map
                PipelineTask.name)))))[i0]? = some bi := by
          simpa using hb
        have hrec := ih _ _ i0 bi t d hb0 ht hd
        rcases hrec with hemit | ⟨j, hj, bj, hbj, u, hu, hn⟩
        · rcases List.mem_append.mp hemit with h | h
          · exact Or.inl h
          · right
            refine ⟨0, Nat.succ_pos _, kahnReady g emitted pending, ?_, ?_⟩
            · rw [kahnBatches, if_neg hbe]
              simp
            · obtain ⟨u, hu, hn⟩ := List.mem_map.mp h
              exact ⟨u, hu, hn⟩
        · right
          refine ⟨j + 1, Nat.succ_lt_succ hj, bj, ?_, u, hu, hn⟩
          rw [kahnBatches, if_neg hbe]
          simpa using hbj

/-! ### Freshness oracle and the force/skip dispatch -/

/-- File modification times: the first matching entry wins (later writes are
put on the front). -/
def mtimeOf (fs : List (String × Nat)) (p : String) : Option Nat :=
  (fs.find? (fun e => e.1 == p)).map (fun e => e.2)

/-- Whether the first timestamp is present and strictly older than the second. -/
def olderThan : Option Nat → Option Nat → Bool
  | some x, some y => decide (x < y)
  | _, _ => false

/-- Modelled from the spec: the freshness check of the external framework
(described at src/pipeline_intro_1.py lines 122 to 126): a task is stale iff
some declared output is missing, or some declared output was created before
(is strictly older than) some declared input. -/
def isStale (fs : List (String × Nat)) (t : PipelineTask) : Bool :=
  t.outputs.any (fun o => (mtimeOf fs o).isNone) ||
    t.outputs.any (fun o =>
      t.inputs.any (fun i => olderThan (mtimeOf fs o) (mtimeOf fs i)))

/-- State of one orchestrator run: the filesystem with modification times, a
monotone clock, and the number of task bodies executed so far. -/
structure RunState where
  fs : List (String × Nat)
  clock : Nat
  executed : Nat
deriving DecidableEq, Repr

/-- Writing the declared outputs at the current clock tick. -/
def writeOutputs (outs : List String) (c : Nat) (fs : List (String × Nat)) :
    List (String × Nat) :=
  outs.foldl (fun acc o => (o, c) :: acc) fs

/-- Modelled from the spec: executing a task body produces its declared
outputs stamped with the current clock; the clock then advances. -/
def execBody (st : RunState) (t : PipelineTask) : RunState :=
  ⟨writeOutputs t.outputs st.clock st.fs, st.clock + 1, st.executed + 1⟩

/-- Modelled from the spec: the orchestrator dispatches a task to the executor
iff force is given or the freshness oracle reports it stale; otherwise the
task is skipped unchanged. -/
def stepTask (force : Bool) (st : RunState) (t : PipelineTask) : RunState :=
  if force || isStale st.fs t then execBody st t else st

/-- Modelled from the spec: one run over the tasks in dependency order. -/
def runOnce (force : Bool) (g : List PipelineTask) (st : RunState) : RunState :=
  g.foldl (stepTask force) st

/-- olderThan holds exactly when both timestamps exist and the first is
strictly smaller. -/
theorem olderThan_eq_true (a b : Option Nat) :
    olderThan a b = true ↔ ∃ x y, a = some x ∧ b = some y ∧ x < y := by
  cases a <;> cases b <;> simp [olderThan]

/-! ### Theorems for claims C1, C6, C7, C8, C9, C10 -/

/-- C1 counterexample: the claim states that the drmaa session is closed and
the job template deleted on every exit path of main, including error exits.
On the execution where runJob raises, main exits via the exception with the
session still open and the template still allocated. -/
theorem main_leaks_session_on_runJob_failure :
    (python_script_main (fun s => s == DrmaaStep.runJob)).1.sessionOpen = true ∧
    (python_script_main (fun s => s == DrmaaStep.runJob)).1.templateAllocated = true ∧
    (python_script_main (fun s => s == DrmaaStep.runJob)).2 = true := by
  decide

/-- C1 (amended): on the exception-free path of main in python_script.py the
drmaa session is closed and the job template deleted before the procedure
returns; cleanup is guaranteed only on that path. -/
theorem main_releases_resources_on_normal_path (fails : DrmaaStep → Bool)
    (h : (python_script_main fails).2 = false) :
    (python_script_main fails).1.sessionOpen = false ∧
    (python_script_main fails).1.templateAllocated = false := by
  simp only [python_script_main, mainSteps, runSteps] at h ⊢
  cases h1 : fails DrmaaStep.initSession <;> simp [h1] at h ⊢ <;>
    cases h2 : fails DrmaaStep.createTemplate <;> simp [h2] at h ⊢ <;>
      cases h3 : fails DrmaaStep.runJob <;> simp [h3] at h ⊢ <;>
        cases h4 : fails DrmaaStep.deleteTemplate <;> simp [h4] at h ⊢ <;>
          cases h5 : fails DrmaaStep.exitSession <;> simp [h5] at h ⊢ <;>
            cases h6 : fails DrmaaStep.unlinkScript <;>
              simp [h6, applyDrmaaStep] at h ⊢

/-- C1 witness: the amended theorem applied to the fault-free execution. -/
theorem main_releases_resources_on_normal_path_witness :
    (python_script_main (fun _ => false)).1.sessionOpen = false ∧
    (python_script_main (fun _ => false)).1.templateAllocated = false :=
  main_releases_resources_on_normal_path (fun _ => false) (by decide)

/-- C6: for every command template that references a substitution key bound
neither in the task local namespace nor in the configuration mapping,
formatting is a fatal error: the result is an error naming a key and is
never a formatted string (no silent no-op). -/
theorem missing_substitution_key_is_fatal (tpl : List TemplatePart)
    (env : List (String × String)) (k : String)
    (hk : TemplatePart.key k ∈ tpl)
    (hmiss : env.find? (fun e => e.1 == k) = none) :
    (∃ k0, formatCommand tpl env = Except.error k0) ∧
    ∀ s, formatCommand tpl env ≠ Except.ok s := by
  have herr : ∃ k0, formatCommand tpl env = Except.error k0 := by
    induction tpl with
    | nil => cases hk
    | cons p rest ih =>
      cases p with
      | lit s =>
        have hk0 : TemplatePart.key k ∈ rest := by
          cases hk with
          | tail _ h => exact h
        obtain ⟨k0, hk0eq⟩ := ih hk0
        exact ⟨k0, by simp [formatCommand, hk0eq, Except.map]⟩
      | key k1 =>
        by_cases hkk : k1 = k
        · subst hkk
          refine ⟨k1, ?_⟩
          simp [formatCommand, hmiss]
        · have hk0 : TemplatePart.key k ∈ rest := by
            cases hk with
            | head => exact absurd rfl hkk
            | tail _ h => exact h
          obtain ⟨k0, hk0eq⟩ := ih hk0
          cases hfind : List.find? (fun e => e.1 == k1) env with
          | none => exact ⟨k1, by simp [formatCommand, hfind]⟩
          | some e => exact ⟨k0, by simp [formatCommand, hfind, hk0eq, Except.map]⟩
  refine ⟨herr, ?_⟩
  intro s hs
  obtain ⟨k0, hk0⟩ := herr
  rw [hk0] at hs
  cases hs

/-- C6 witness: the trimmomatic statement of trimFastqReads formatted in an
environment missing trim_tool_location is a fatal error. -/
theorem missing_substitution_key_is_fatal_witness :
    (∃ k0, formatCommand trimStatement trimEnvMissingTool = Except.error k0) ∧
    ∀ s, formatCommand trimStatement trimEnvMissingTool ≠ Except.ok s :=
  missing_substitution_key_is_fatal trimStatement trimEnvMissingTool
    "trim_tool_location" (by decide) (by decide)

/-- C7 counterexample: the claim states that no registered task has an empty
declared-output sequence, but the follows-only aggregate task full of
pipeline_intro_1.py is registered with no outputs. -/
theorem follows_task_has_no_outputs :
    fullIntro1 ∈ intro1Tasks ∧ fullIntro1.outputs = [] := by
  constructor
  · simp [intro1Tasks]
  · rfl

/-- C7 (amended): every task registered through an output-declaring decorator
(originate, files, transform, subdivide) declares at least one output; only
the follows-only aggregate tasks (full, sectionOne, sectionTwo, sectionThree)
declare none. -/
theorem output_decorated_tasks_have_outputs (t : PipelineTask)
    (ht : t ∈ allRegisteredTasks) (hdec : t.decorator ≠ "follows") :
    t.outputs ≠ [] := by
  have hall : ∀ u ∈ allRegisteredTasks, u.decorator ≠ "follows" → u.outputs ≠ [] := by
    decide
  exact hall t ht hdec

/-- C7 witness: the amended theorem applied to taskOne. -/
theorem output_decorated_tasks_have_outputs_witness : taskOne.outputs ≠ [] :=
  output_decorated_tasks_have_outputs taskOne (by decide) (by decide)

/-- C8: create_dummy_files declares exactly ten outputs, the files
task_1.sentinel through task_10.sentinel, and writes every file it creates
with empty content. -/
theorem create_dummy_files_ten_empty_outputs :
    create_dummy_files_outputs.length = 10 ∧
    create_dummy_files_outputs =
      ["task_1.sentinel", "task_2.sentinel", "task_3.sentinel",
       "task_4.sentinel", "task_5.sentinel", "task_6.sentinel",
       "task_7.sentinel", "task_8.sentinel", "task_9.sentinel",
       "task_10.sentinel"] ∧
    ∀ f, create_dummy_files f = (f, "") :=
  ⟨by decide, by decide, fun _ => rfl⟩

/-- Unfolding the four-element join used by taskThree. -/
theorem intercalate_taskThree (t0 t1 t2 : String) :
    String.intercalate " " [t0, "brave new", t1, t2] ++ "\n" =
      t0 ++ " brave new " ++ t1 ++ " " ++ t2 ++ "\n" := by
  show ((t0 ++ " " ++ "brave new") ++ " " ++ t1) ++ " " ++ t2 ++ "\n" =
    t0 ++ " brave new " ++ t1 ++ " " ++ t2 ++ "\n"
  have h : (" brave new " : String) = " " ++ ("brave new" ++ " ") := rfl
  rw [h]
  simp only [String.append_assoc]

/-- C9: whenever the first line of the input has at least three
whitespace-separated tokens, taskThree writes token 0, the literal brave new,
token 1 and token 2 separated by single spaces and followed by a newline;
with fewer than three tokens the unguarded indexing raises (none). -/
theorem taskThree_body_output_format (content : String) :
    (∀ t0 t1 t2 rest, pySplit (firstLineOf content) = t0 :: t1 :: t2 :: rest →
      taskThree_body content =
        some (t0 ++ " brave new " ++ t1 ++ " " ++ t2 ++ "\n")) ∧
    ((pySplit (firstLineOf content)).length < 3 →
      taskThree_body content = none) := by
  constructor
  · intro t0 t1 t2 rest h
    simp only [taskThree_body, h]
    rw [intercalate_taskThree]
  · intro h
    simp only [taskThree_body]
    cases htoks : pySplit (firstLineOf content) with
    | nil => rfl
    | cons t0 rest0 =>
      cases rest0 with
      | nil => rfl
      | cons t1 rest1 =>
        cases rest1 with
        | nil => rfl
        | cons t2 rest2 =>
          rw [htoks] at h
          simp at h
          omega

/-- C9 witness: the theorem applied to the actual taskOne output file content
and to a one-token first line. -/
theorem taskThree_body_output_format_witness :
    taskThree_body "Hello world ONE\n" = some "Hello brave new world ONE\n" ∧
    taskThree_body "Hello\n" = none := by
  constructor
  · exact (taskThree_body_output_format "Hello world ONE\n").1
      "Hello" "world" "ONE" [] (by decide)
  · exact (taskThree_body_output_format "Hello\n").2 (by decide)

/-- C10: loading a count table under the name derived from the sentinel file
and then retrieving it through the same sentinel returns exactly the loaded
dataframe, so the tab-separated output written by retrieveSQLTable renders
the same rows and columns that were loaded. -/
theorem sql_load_retrieve_round_trip (df : DataFrame) (sentinel : String)
    (db : Database) :
    retrieveSQLTable sentinel (loadSQLTable df sentinel db) = some df ∧
    (retrieveSQLTable sentinel (loadSQLTable df sentinel db)).map to_csv_tsv =
      some (to_csv_tsv df) := by
  have h : retrieveSQLTable sentinel (loadSQLTable df sentinel db) = some df := by
    simp [retrieveSQLTable, loadSQLTable, to_sql, read_sql_query_all, List.find?]
  exact ⟨h, by rw [h]; rfl⟩

/-- C2: in the topological ordering produced by the Kahn-style batching over
follows edges and input/output matches, every dependency of a task placed in
batch i appears in a strictly earlier batch; in particular in the intro
pipeline taskOne sits in batch 0, taskTwo in batch 1 and taskThree in
batch 2. -/
theorem topologicalOrder_deps_in_earlier_batches (g : List PipelineTask)
    (i : Nat) (bi : List PipelineTask) (t : PipelineTask) (d : String)
    (hb : (topologicalOrder g)[i]? = some bi) (ht : t ∈ bi)
    (hd : d ∈ depsOf g t) :
    (∃ j, j < i ∧ ∃ bj, (topologicalOrder g)[j]? = some bj ∧
      ∃ u, u ∈ bj ∧ u.name = d) ∧
    batchIdx intro1Tasks "taskOne" = some 0 ∧
    batchIdx intro1Tasks "taskTwo" = some 1 ∧
    batchIdx intro1Tasks "taskThree" = some 2 := by
  refine ⟨?_, by decide, by decide, by decide⟩
  have h := kahnBatches_deps_emitted g g.length [] g i bi t d hb ht hd
  rcases h with h | h
  · cases h
  · exact h

/-- C2 witness: taskTwo sits in batch 1 of the intro pipeline and its
dependency taskOne in a strictly earlier batch. -/
theorem topologicalOrder_deps_in_earlier_batches_witness :
    (∃ j, j < 1 ∧ ∃ bj, (topologicalOrder intro1Tasks)[j]? = some bj ∧
      ∃ u, u ∈ bj ∧ u.name = "taskOne") ∧
    batchIdx intro1Tasks "taskOne" = some 0 ∧
    batchIdx intro1Tasks "taskTwo" = some 1 ∧
    batchIdx intro1Tasks "taskThree" = some 2 :=
  topologicalOrder_deps_in_earlier_batches intro1Tasks 1 [taskTwo] taskTwo
    "taskOne" (by decide) (by decide) (by decide)

/-- C3: with B consuming the output o of A as its only declared input, the
freshness oracle marks B stale exactly when one of the declared outputs of B
is missing or is strictly older than o; when every output of B exists and is
at least as new as o, B is not stale and the dispatcher skips it. -/
theorem freshness_oracle_characterisation (fs : List (String × Nat))
    (A B : PipelineTask) (o : String)
    (hin : B.inputs = [o]) (ho : o ∈ A.outputs) :
    (isStale fs B = true ↔
      (∃ out ∈ B.outputs, mtimeOf fs out = none) ∨
      (∃ out ∈ B.outputs, ∃ mo mi, mtimeOf fs out = some mo ∧
        mtimeOf fs o = some mi ∧ mo < mi)) ∧
    ((∀ out ∈ B.outputs, ∃ mo, mtimeOf fs out = some mo ∧
        ∀ mi, mtimeOf fs o = some mi → mi ≤ mo) →
      isStale fs B = false) ∧
    (∀ c e, isStale fs B = false → stepTask false ⟨fs, c, e⟩ B = ⟨fs, c, e⟩) := by
  have hiff : isStale fs B = true ↔
      (∃ out ∈ B.outputs, mtimeOf fs out = none) ∨
      (∃ out ∈ B.outputs, ∃ mo mi, mtimeOf fs out = some mo ∧
        mtimeOf fs o = some mi ∧ mo < mi) := by
    simp [isStale, hin, List.any_eq_true, Option.isNone_iff_eq_none,
      olderThan_eq_true]
  refine ⟨hiff, ?_, ?_⟩
  · intro h
    cases hst : isStale fs B with
    | false => rfl
    | true =>
      exfalso
      rcases hiff.mp hst with ⟨out, hout, hnone⟩ | ⟨out, hout, mo, mi, hmo, hmi, hlt⟩
      · obtain ⟨mo, hmo, _⟩ := h out hout
        rw [hmo] at hnone
        cases hnone
      · obtain ⟨mo2, hmo2, hge⟩ := h out hout
        rw [hmo] at hmo2
        injection hmo2 with he
        subst he
        have h2 := hge mi hmi
        omega
  · intro c e hf
    simp [stepTask, hf]

/-- C3 witness: with the output of taskOne newer than the existing output of
taskTwo, the oracle marks taskTwo stale. -/
theorem freshness_oracle_characterisation_witness :
    isStale [("Task01_output_file.txt", 5), ("Task02_output_file.txt", 3)]
      taskTwo = true :=
  (freshness_oracle_characterisation
      [("Task01_output_file.txt", 5), ("Task02_output_file.txt", 3)]
      taskOne taskTwo "Task01_output_file.txt" rfl (by decide)).1.mpr
    (Or.inr ⟨"Task02_output_file.txt", by decide, 3, 5, by decide, by decide,
      by decide⟩)

/-! ### Executor with output post-condition and downstream skipping -/

/-- Task states of the data model (the ones reachable in this run model). -/
inductive TaskState where
  | Pending
  | Succeeded
  | FailedMissing
  | Skipped
deriving DecidableEq, Repr

/-- State of one executor run: the existing files and the recorded task
states, most recent first. -/
structure ExecState where
  fs : List String
  states : List (String × TaskState)
deriving DecidableEq, Repr

/-- The recorded state of a task, Pending when not yet recorded. -/
def stateOf (st : ExecState) (n : String) : TaskState :=
  ((st.states.find? (fun e => e.1 == n)).map (fun e => e.2)).getD TaskState.Pending

/-- Modelled from the spec: the Executor and Orchestrator of the external
framework (not in src/) run one task as follows: when a dependency did not
succeed the task is Skipped; otherwise the body runs, adding the files it
actually produces, and the executor verifies the declared outputs as a
post-condition: all present gives Succeeded, otherwise the MissingOutput
failure. -/
def execTask (g : List PipelineTask) (produces : String → List String)
    (st : ExecState) (t : PipelineTask) : ExecState :=
  if (depsOf g t).all (fun d => stateOf st d == TaskState.Succeeded) then
    if t.outputs.all (fun o => decide (o ∈ st.fs ++ produces t.name)) then
      ⟨st.fs ++ produces t.name, (t.name, TaskState.Succeeded) :: st.states⟩
    else ⟨st.fs ++ produces t.name, (t.name, TaskState.FailedMissing) :: st.states⟩
  else ⟨st.fs, (t.name, TaskState.Skipped) :: st.states⟩

/-- Modelled from the spec: run every task of the graph in dependency order
starting from an empty filesystem. -/
def runPipeline (g : List PipelineTask) (produces : String → List String) :
    ExecState :=
  g.foldl (execTask g produces) ⟨[], []⟩

/-- Recording a new task state shadows nothing but the same name. -/
theorem stateOf_cons (fs : List String) (sts : List (String × TaskState))
    (m : String) (x : TaskState) (n : String) :
    stateOf ⟨fs, (m, x) :: sts⟩ n = if m = n then x else stateOf ⟨fs, sts⟩ n := by
  by_cases h : m = n
  · subst h
    simp [stateOf, List.find?]
  · have hbeq : (m == n) = false := by
      simpa using h
    simp [stateOf, List.find?, hbeq, h]

/-- In a graph with pairwise distinct task names, equal names mean equal
tasks. -/
theorem name_injective (g : List PipelineTask)
    (hnd : (g.map PipelineTask.name).Nodup) (t u : PipelineTask)
    (ht : t ∈ g) (hu : u ∈ g) (h : t.name = u.name) : t = u :=
  List.inj_on_of_nodup_map hnd ht hu h

/-- One executor step preserves the invariant that the declared outputs of
every task recorded Succeeded are present in the filesystem. -/
theorem execTask_preserves_inv (g : List PipelineTask)
    (produces : String → List String)
    (hnd : (g.map PipelineTask.name).Nodup) (st : ExecState) (u : PipelineTask)
    (hu : u ∈ g)
    (hinv : ∀ t ∈ g, stateOf st t.name = TaskState.Succeeded →
      ∀ o ∈ t.outputs, o ∈ st.fs) :
    ∀ t ∈ g, stateOf (execTask g produces st u) t.name = TaskState.Succeeded →
      ∀ o ∈ t.outputs, o ∈ (execTask g produces st u).fs := by
  intro t htg hsucc o ho
  unfold execTask at hsucc ⊢
  by_cases hdep : (depsOf g u).all (fun d => stateOf st d == TaskState.Succeeded)
  · rw [if_pos hdep] at hsucc ⊢
    by_cases hout : u.outputs.all (fun o => decide (o ∈ st.fs ++ produces u.name))
    · rw [if_pos hout] at hsucc ⊢
      by_cases hname : u.name = t.name
      · have heq : t = u := name_injective g hnd t u htg hu hname.symm
        subst heq
        have := List.all_eq_true.mp hout o ho
        simpa using this
      · rw [stateOf_cons, if_neg hname] at hsucc
        exact List.mem_append_left _ (hinv t htg hsucc o ho)
    · rw [if_neg hout] at hsucc ⊢
      by_cases hname : u.name = t.name
      · rw [stateOf_cons, if_pos hname] at hsucc
        cases hsucc
      · rw [stateOf_cons, if_neg hname] at hsucc
        exact List.mem_append_left _ (hinv t htg hsucc o ho)
  · rw [if_neg hdep] at hsucc ⊢
    by_cases hname : u.name = t.name
    · rw [stateOf_cons, if_pos hname] at hsucc
      cases hsucc
    · rw [stateOf_cons, if_neg hname] at hsucc
      exact hinv t htg hsucc o ho

/-- Folding the executor over any suffix of the graph preserves the
Succeeded-implies-outputs-present invariant. -/
theorem foldl_execTask_inv (g : List PipelineTask)
    (produces : String → List String)
    (hnd : (g.map PipelineTask.name).Nodup) :
    ∀ (L : List PipelineTask) (st : ExecState),
      (∀ u ∈ L, u ∈ g) →
      (∀ t ∈ g, stateOf st t.name = TaskState.Succeeded →
        ∀ o ∈ t.outputs, o ∈ st.fs) →
      ∀ t ∈ g,
        stateOf (L.foldl (execTask g produces) st) t.name = TaskState.Succeeded →
        ∀ o ∈ t.outputs, o ∈ (L.foldl (execTask g produces) st).fs := by
  intro L
  induction L with
  | nil => intro st _ hinv; exact hinv
  | cons u L ih =>
    intro st hsub hinv
    simp only [List.foldl_cons]
    exact ih (execTask g produces st u)
      (fun v hv => hsub v (List.mem_cons_of_mem _ hv))
      (execTask_preserves_inv g produces hnd st u (hsub u (List.mem_cons_self _ _))
        hinv)

/-- The scenario graph: A produces a.out consumed by B, B produces b.out
consumed by C, and D is independent. -/
def scTaskA : PipelineTask := ⟨"A", "originate", [], ["a.out"], []⟩

/-- Scenario task B, consuming the output of A. -/
def scTaskB : PipelineTask := ⟨"B", "transform", ["a.out"], ["b.out"], []⟩

/-- Scenario task C, consuming the output of B. -/
def scTaskC : PipelineTask := ⟨"C", "transform", ["b.out"], ["c.out"], []⟩

/-- Scenario task D, independent of the chain. -/
def scTaskD : PipelineTask := ⟨"D", "originate", [], ["d.out"], []⟩

/-- The scenario graph in dependency order. -/
def scGraph : List PipelineTask := [scTaskA, scTaskB, scTaskC, scTaskD]

/-- Scenario bodies: the body of A returns without producing its declared
output; the other bodies produce theirs. -/
def scProduces : String → List String := fun n =>
  if n == "A" then []
  else if n == "B" then ["b.out"]
  else if n == "C" then ["c.out"]
  else if n == "D" then ["d.out"]
  else []

/-- C4: every task recorded Succeeded has all its declared outputs present in
the final filesystem; and in the scenario where the body of A under-produces,
A is reported as the MissingOutput failure, its dependents B and C are
Skipped, and the independent sibling D still reaches Succeeded. -/
theorem executor_verifies_outputs_and_skips_downstream
    (g : List PipelineTask) (produces : String → List String) (t : PipelineTask)
    (hnd : (g.map PipelineTask.name).Nodup) (htg : t ∈ g)
    (hsucc : stateOf (runPipeline g produces) t.name = TaskState.Succeeded) :
    (∀ o ∈ t.outputs, o ∈ (runPipeline g produces).fs) ∧
    stateOf (runPipeline scGraph scProduces) "A" = TaskState.FailedMissing ∧
    stateOf (runPipeline scGraph scProduces) "B" = TaskState.Skipped ∧
    stateOf (runPipeline scGraph scProduces) "C" = TaskState.Skipped ∧
    stateOf (runPipeline scGraph scProduces) "D" = TaskState.Succeeded := by
  refine ⟨?_, by decide, by decide, by decide, by decide⟩
  exact foldl_execTask_inv g produces hnd g ⟨[], []⟩ (fun u hu => hu)
    (fun t0 _ h0 => by simp [stateOf] at h0) t htg hsucc

/-- C4 witness: the theorem applied to the independent task D of the
scenario. -/
theorem executor_verifies_outputs_and_skips_downstream_witness :
    (∀ o ∈ scTaskD.outputs, o ∈ (runPipeline scGraph scProduces).fs) ∧
    stateOf (runPipeline scGraph scProduces) "A" = TaskState.FailedMissing ∧
    stateOf (runPipeline scGraph scProduces) "B" = TaskState.Skipped ∧
    stateOf (runPipeline scGraph scProduces) "C" = TaskState.Skipped ∧
    stateOf (runPipeline scGraph scProduces) "D" = TaskState.Succeeded :=
  executor_verifies_outputs_and_skips_downstream scGraph scProduces scTaskD
    (by decide) (by decide) (by decide)

/-! ### Idempotence of an immediate re-run -/

/-- All recorded modification times are strictly below the clock. -/
def clockBound (st : RunState) : Prop :=
  ∀ p m, mtimeOf st.fs p = some m → m < st.clock

/-- Looking up a path after recording one write. -/
theorem mtimeOf_cons (fs : List (String × Nat)) (q : String) (c : Nat)
    (p : String) :
    mtimeOf ((q, c) :: fs) p = if q = p then some c else mtimeOf fs p := by
  by_cases h : q = p
  · subst h
    simp [mtimeOf, List.find?]
  · have hbeq : (q == p) = false := by
      simpa using h
    simp [mtimeOf, List.find?, hbeq, h]

/-- Looking up a path after writing a set of outputs at one clock tick. -/
theorem mtimeOf_writeOutputs (c : Nat) :
    ∀ (outs : List String) (fs : List (String × Nat)) (p : String),
      mtimeOf (writeOutputs outs c fs) p =
        if p ∈ outs then some c else mtimeOf fs p := by
  intro outs
  induction outs with
  | nil =>
    intro fs p
    simp [writeOutputs]
  | cons o rest ih =>
    intro fs p
    have hstep : writeOutputs (o :: rest) c fs = writeOutputs rest c ((o, c) :: fs) :=
      rfl
    rw [hstep, ih, mtimeOf_cons]
    by_cases hp : p ∈ rest
    · simp [hp, List.mem_cons]
    · by_cases hpo : o = p
      · subst hpo
        simp [hp, List.mem_cons]
      · have hpo2 : ¬p = o := fun h => hpo h.symm
        simp [hp, hpo, hpo2, List.mem_cons]

/-- Executing a body keeps all timestamps below the advanced clock. -/
theorem clockBound_execBody (st : RunState) (t : PipelineTask)
    (h : clockBound st) : clockBound (execBody st t) := by
  intro p m hm
  simp only [execBody] at hm ⊢
  rw [mtimeOf_writeOutputs] at hm
  by_cases hp : p ∈ t.outputs
  · rw [if_pos hp] at hm
    injection hm with hm
    omega
  · rw [if_neg hp] at hm
    have := h p m hm
    omega

/-- One dispatch step keeps all timestamps below the clock. -/
theorem clockBound_stepTask (force : Bool) (st : RunState) (t : PipelineTask)
    (h : clockBound st) : clockBound (stepTask force st t) := by
  unfold stepTask
  split
  · exact clockBound_execBody st t h
  · exact h

/-- A whole run keeps all timestamps below the clock. -/
theorem clockBound_runOnce (force : Bool) :
    ∀ (g : List PipelineTask) (st : RunState), clockBound st →
      clockBound (runOnce force g st) := by
  intro g
  induction g with
  | nil => intro st h; exact h
  | cons u L ih =>
    intro st h
    exact ih (stepTask force st u) (clockBound_stepTask force st u h)

/-- A task is not stale exactly when no output is missing and no output/input
pair is out of date. -/
theorem isStale_eq_false_iff (fs : List (String × Nat)) (t : PipelineTask) :
    isStale fs t = false ↔
      (∀ o ∈ t.outputs, ¬mtimeOf fs o = none) ∧
      (∀ o ∈ t.outputs, ∀ i ∈ t.inputs,
        olderThan (mtimeOf fs o) (mtimeOf fs i) = false) := by
  simp [isStale, List.any_eq_false, Option.isNone_iff_eq_none]

/-- Right after its body executes, a task is fresh: all outputs carry the
newest timestamp. -/
theorem isStale_execBody (st : RunState) (t : PipelineTask)
    (h : clockBound st) : isStale (execBody st t).fs t = false := by
  rw [isStale_eq_false_iff]
  constructor
  · intro o ho
    simp only [execBody]
    rw [mtimeOf_writeOutputs, if_pos ho]
    intro hc
    cases hc
  · intro o ho i hi
    simp only [execBody]
    rw [mtimeOf_writeOutputs, if_pos ho, mtimeOf_writeOutputs]
    by_cases hio : i ∈ t.outputs
    · rw [if_pos hio]
      simp [olderThan]
    · rw [if_neg hio]
      cases hmi : mtimeOf st.fs i with
      | none => simp [olderThan]
      | some mi =>
        have := h i mi hmi
        simp [olderThan]
        omega

/-- After one dispatch step a task is fresh: it either just executed or was
already fresh and untouched. -/
theorem isStale_stepTask_self (force : Bool) (st : RunState) (t : PipelineTask)
    (h : clockBound st) : isStale (stepTask force st t).fs t = false := by
  unfold stepTask
  split
  · exact isStale_execBody st t h
  · next hcond =>
    simp only [Bool.or_eq_true, not_or] at hcond
    simpa using hcond.2

/-- Bool any respects pointwise equal predicates. -/
theorem any_congr {α : Type} (l : List α) (f g : α → Bool)
    (h : ∀ x ∈ l, f x = g x) : l.any f = l.any g := by
  induction l with
  | nil => rfl
  | cons a l ih =>
    simp only [List.any_cons]
    rw [h a (List.mem_cons_self a l), ih (fun x hx => h x (List.mem_cons_of_mem a hx))]

/-- Staleness of a task depends only on the timestamps of its own declared
inputs and outputs. -/
theorem isStale_congr (fs1 fs2 : List (String × Nat)) (t : PipelineTask)
    (h : ∀ p, p ∈ t.inputs ∨ p ∈ t.outputs → mtimeOf fs1 p = mtimeOf fs2 p) :
    isStale fs1 t = isStale fs2 t := by
  unfold isStale
  congr 1
  · exact any_congr t.outputs _ _ (fun o ho => by rw [h o (Or.inr ho)])
  · exact any_congr t.outputs _ _ (fun o ho =>
      any_congr t.inputs _ _ (fun i hi => by
        rw [h o (Or.inr ho), h i (Or.inl hi)]))

/-- A dispatch step only changes the timestamps of the outputs of the task it
dispatches. -/
theorem mtimeOf_stepTask_notin (force : Bool) (st : RunState)
    (u : PipelineTask) (p : String) (hp : p ∉ u.outputs) :
    mtimeOf (stepTask force st u).fs p = mtimeOf st.fs p := by
  unfold stepTask
  split
  · simp only [execBody]
    rw [mtimeOf_writeOutputs, if_neg hp]
  · rfl

/-- A fresh task stays fresh through a run whose tasks write none of its
files. -/
theorem isStale_runOnce_preserved (force : Bool) (t : PipelineTask) :
    ∀ (L : List PipelineTask) (st : RunState),
      isStale st.fs t = false →
      (∀ u ∈ L, ∀ o ∈ u.outputs, o ∉ t.inputs ∧ o ∉ t.outputs) →
      isStale (runOnce force L st).fs t = false := by
  intro L
  induction L with
  | nil => intro st h _; exact h
  | cons u L ih =>
    intro st h hdisj
    have hstep : isStale (stepTask force st u).fs t = false := by
      rw [isStale_congr (stepTask force st u).fs st.fs t ?_]
      · exact h
      · intro p hp
        apply mtimeOf_stepTask_notin
        intro hpu
        rcases hp with hpin | hpout
        · exact (hdisj u (List.mem_cons_self u L) p hpu).1 hpin
        · exact (hdisj u (List.mem_cons_self u L) p hpu).2 hpout
    exact ih (stepTask force st u) hstep
      (fun v hv => hdisj v (List.mem_cons_of_mem u hv))

/-- After a whole run in dependency order, every task of the graph is fresh. -/
theorem runOnce_all_fresh (force : Bool) :
    ∀ (g : List PipelineTask) (st : RunState), clockBound st →
      List.Pairwise
        (fun a c => ∀ o ∈ c.outputs, o ∉ a.inputs ∧ o ∉ a.outputs) g →
      ∀ t ∈ g, isStale (runOnce force g st).fs t = false := by
  intro g
  induction g with
  | nil => intro st _ _ t ht; cases ht
  | cons u L ih =>
    intro st hcb hpw t ht
    have hpw1 := List.pairwise_cons.mp hpw
    rcases List.mem_cons.mp ht with rfl | htL
    · exact isStale_runOnce_preserved force t L (stepTask force st t)
        (isStale_stepTask_self force st t hcb) hpw1.1
    · exact ih (stepTask force st u) (clockBound_stepTask force st u hcb)
        hpw1.2 t htL

/-- A run without force over only-fresh tasks changes nothing. -/
theorem runOnce_no_stale_id :
    ∀ (g : List PipelineTask) (st : RunState),
      (∀ t ∈ g, isStale st.fs t = false) → runOnce false g st = st := by
  intro g
  induction g with
  | nil => intro st _; rfl
  | cons u L ih =>
    intro st h
    have hu : stepTask false st u = st := by
      unfold stepTask
      rw [h u (List.mem_cons_self u L)]
      simp
    have hrest : runOnce false (u :: L) st = runOnce false L (stepTask false st u) :=
      rfl
    rw [hrest, hu]
    exact ih st (fun t ht => h t (List.mem_cons_of_mem u ht))

/-- A forced run executes every task body. -/
theorem runOnce_force_executes_all :
    ∀ (g : List PipelineTask) (st : RunState),
      (runOnce true g st).executed = st.executed + g.length := by
  intro g
  induction g with
  | nil => intro st; rfl
  | cons u L ih =>
    intro st
    have hstep : stepTask true st u = execBody st u := by
      unfold stepTask
      simp
    have hrest : runOnce true (u :: L) st = runOnce true L (stepTask true st u) :=
      rfl
    rw [hrest, hstep, ih]
    simp only [execBody, List.length_cons]
    omega

/-- C5: with the tasks listed in dependency order (no later task writes an
earlier task file) and a consistent clock, re-running the pipeline right
after a run executes zero task bodies, while a forced re-run executes every
task body again. -/
theorem rerun_executes_zero_tasks (g : List PipelineTask) (st0 : RunState)
    (b : Bool) (hcb : clockBound st0)
    (hord : List.Pairwise
      (fun a c => ∀ o ∈ c.outputs, o ∉ a.inputs ∧ o ∉ a.outputs) g) :
    (runOnce false g (runOnce b g st0)).executed = (runOnce b g st0).executed ∧
    (runOnce true g (runOnce b g st0)).executed =
      (runOnce b g st0).executed + g.length := by
  have hfresh := runOnce_all_fresh b g st0 hcb hord
  constructor
  · rw [runOnce_no_stale_id g (runOnce b g st0) hfresh]
  · exact runOnce_force_executes_all g (runOnce b g st0)

/-- C5 witness: the intro pipeline, run from an empty filesystem, re-runs
with zero executed bodies, and with force executes all four again. -/
theorem rerun_executes_zero_tasks_witness :
    (runOnce false intro1Tasks (runOnce false intro1Tasks ⟨[], 0, 0⟩)).executed =
      (runOnce false intro1Tasks ⟨[], 0, 0⟩).executed ∧
    (runOnce true intro1Tasks (runOnce false intro1Tasks ⟨[], 0, 0⟩)).executed =
      (runOnce false intro1Tasks ⟨[], 0, 0⟩).executed + intro1Tasks.length :=
  rerun_executes_zero_tasks intro1Tasks ⟨[], 0, 0⟩ false
    (fun p m h => by simp [mtimeOf] at h) (by decide)
